import Mathlib

/-!
# Component and component-class blueprints

A shallow embedding of `blueprints/component/index.js` and
`blueprints/component-class/index.js`.

* JavaScript strings are Lean strings; an option that may be absent
  (`undefined`) is an `Option String`.
* The blueprint instance (`this`) is a record that every hook takes and returns.
* Calls into the host generator runtime (`this._super.*`, `this.ui.writeLine`)
  are recorded, in order, in a list of `Call`s.
* Functions of npm packages (`path`, `chalk`, `ember-cli-string-utils`,
  `ember-cli-path-utils`, `ember-cli-get-component-path-option`,
  `ember-cli-normalize-entity-name`, `os`) and the host's `mapFile` are not
  part of the repository; they are the fields of `Libs`.
-/

namespace Blueprints

/-- The object a host passes as `locals` to `beforeInstall`: keys and values. -/
abbrev LocalsObj := List (String × String)

/-- Options object handed to `install`, `uninstall`, `afterInstall`, `locals`, and
kept by the host as `this.options`. Only the fields the two blueprints read. -/
structure Options where
  componentClass : Option String
  componentStructure : Option String
  pod : Bool
  entityName : String
  isEmberCLIAddon : Bool
  inRepoAddon : Bool
  inDummy : Bool
  deriving DecidableEq, Repr

/-- Options object handed to `fileMapTokens`. -/
structure TokenOptions where
  podPath : String
  localsPath : String
  dasherizedModuleName : String
  deriving DecidableEq, Repr

/-- Functions and constants the blueprints import from outside the repository. -/
structure Libs where
  pathJoin : String → String → String → String
  classify : String → String
  dasherize : String → String
  getRelativeParentPath : String → String
  getPathOption : Options → String
  hostNormalizeEntityName : String → String
  EOL : String
  chalkYellow : String → String
  chalkCyan : String → String
  mapFile : String → LocalsObj → String

/-- Observable calls a hook makes into the host runtime. -/
inductive Call where
  | superInstall (options : Options)
  | superUninstall (options : Options)
  | superAfterInstall (options : Options)
  | writeLine (line : String)
  deriving DecidableEq, Repr

/-- How a hook ends: it throws a `SilentError` with a message, or it returns. -/
inductive Completion where
  | threw (message : String)
  | returned
  deriving DecidableEq, Repr

/-- JavaScript `Set.prototype.add` on an insertion-ordered set. -/
def setAdd (s : List String) (x : String) : List String :=
  if x ∈ s then s else s ++ [x]

/-- JavaScript `String.prototype.endsWith`. -/
def endsWith (s suffix : String) : Bool :=
  suffix.data.isSuffixOf s.data

/-- The regular expression `/\.js$/` tried at one start position: the rest of
the input from that position must be exactly `.js`. -/
def matchesJsAtEnd (rest : List Char) : Bool :=
  rest == ['.', 'j', 's']

/-- JavaScript `chars.replace(/\.js$/, '')`: the start positions are tried from
left to right, and the first match is replaced by the empty string. -/
def replaceJsAtEnd : List Char → List Char
  | [] => []
  | c :: cs => if matchesJsAtEnd (c :: cs) then [] else c :: replaceJsAtEnd cs

/-- JavaScript `name.replace(/\//g, '-')`: every `/` becomes `-`. -/
def replaceSlashes (name : String) : String :=
  ⟨name.data.map (fun c => if c = '/' then '-' else c)⟩

/-- A token map returned by `fileMapTokens`: token name and the string the
token's function returns, in the order of the object literal. -/
abbrev TokenMap := List (String × String)

/-- Property lookup on a token map. -/
def TokenMap.get (m : TokenMap) (key : String) : Option String :=
  (m.find? (fun p => p.1 == key)).map (fun p => p.2)

/-- The object returned by `locals`. -/
structure Locals where
  importTemplate : String
  importComponent : String
  defaultExport : String
  path : String
  componentClass : Option String
  deriving DecidableEq, Repr

/-- Message of the error for `--component-class` outside Octane. -/
def componentClassMessage : String :=
  "Usage of --component-class argument to `ember generate component` is only available in Ember Octane. Check to make sure that the \"ember.edition\" field of your package.json is set to \"octane\""

/-- Message of the error for `--component-structure` outside Octane. -/
def componentStructureMessage : String :=
  "Usage of --component-structure argument to `ember generate component` is only available in Ember Octane. Check to make sure that the \"ember.edition\" field of your package.json is set to \"octane\""

/-- Message of the error of the component-class blueprint outside Octane. -/
def componentClassBlueprintMessage : String :=
  "Usage of `ember generate component-class` is only available in Ember Octane. Check to make sure that the \"ember.edition\" field of your package.json is set to \"octane\""

/-- JavaScript truthiness of a string. -/
def truthy (s : String) : Bool :=
  s != ""

/-- The condition `options.project.isEmberCLIAddon() || (options.inRepoAddon &&
!options.inDummy)` of `locals`. -/
def inAddon (options : Options) : Bool :=
  options.isEmberCLIAddon || (options.inRepoAddon && !options.inDummy)

/-- The `templatePath` computed at the top of `locals`: empty
outside an addon, `./template` in pod mode, and otherwise the relative parent
path of the entity followed by `templates/components/` and the dasherized name. -/
def templatePath (libs : Libs) (options : Options) : String :=
  if inAddon options then
    if options.pod then
      "./template"
    else
      libs.getRelativeParentPath options.entityName ++ "templates/components/"
        ++ libs.dasherize options.entityName
  else
    ""

/-! ## `blueprints/component/index.js` -/

namespace Component

/-- Instance state of the component blueprint: `this.isOctane`, `this.options`
(set by the host), `this.skippedJsFiles` and `this.savedLocals`. -/
structure This where
  isOctane : Bool
  options : Options
  skippedJsFiles : List String
  savedLocals : LocalsObj
  deriving DecidableEq, Repr

/-- Hook `init()`: `hasOctane` is the result of `has('octane')`. The rewriting of
the defaults of `availableOptions` is not modelled. -/
def init (this : This) (hasOctane : Bool) : This :=
  { this with skippedJsFiles := [], savedLocals := [], isOctane := hasOctane }

/-- Hook `install(options)`: the options object after the call, the calls made
into the host, and how the hook ended. -/
def install (this : This) (options : Options) : Options × List Call × Completion :=
  let options :=
    if options.componentClass = some "--no-component-class" then
      { options with componentClass := some "" }
    else options
  if !this.isOctane then
    if options.componentClass ≠ some "@ember/component" then
      (options, [], Completion.threw componentClassMessage)
    else if options.componentStructure ≠ some "classic" then
      (options, [], Completion.threw componentStructureMessage)
    else
      (options, [Call.superInstall options], Completion.returned)
  else
    (options, [Call.superInstall options], Completion.returned)

/-- Hook `uninstall(options)`. -/
def uninstall (_this : This) (options : Options) : Options × List Call × Completion :=
  let options := { options with componentClass := some "@ember/component" }
  (options, [Call.superUninstall options], Completion.returned)

/-- Hook `beforeInstall(options, locals)`. -/
def beforeInstall (this : This) (_options : Options) (locals : LocalsObj) : This :=
  { this with savedLocals := locals }

/-- Hook `afterInstall(options)`: the calls made, in order. The host
`afterInstall` is taken not to touch `skippedJsFiles` or `savedLocals`. -/
def afterInstall (libs : Libs) (this : This) (options : Options) : List Call :=
  let skipLines := this.skippedJsFiles.map (fun file =>
    let mapped := libs.mapFile file this.savedLocals
    Call.writeLine ("  " ++ libs.chalkYellow "skip" ++ " " ++ mapped))
  let tipLines :=
    if this.skippedJsFiles.length > 0 then
      let command := "ember generate component-class " ++ options.entityName
      [Call.writeLine ("  " ++ libs.chalkCyan "tip" ++ " to add a class, run `" ++ command ++ "`")]
    else []
  [Call.superAfterInstall options] ++ skipLines ++ tipLines

/-- Hook `fileMapTokens(options)`; `none` is the `undefined` of falling off the
end of the function. -/
def fileMapTokens (libs : Libs) (this : This) (options : TokenOptions) : Option TokenMap :=
  let commandOptions := this.options
  if commandOptions.pod then
    some [("__path__",
            libs.pathJoin options.podPath options.localsPath options.dasherizedModuleName),
          ("__templatepath__",
            libs.pathJoin options.podPath options.localsPath options.dasherizedModuleName),
          ("__templatename__", "template")]
  else if !this.isOctane || commandOptions.componentStructure = some "classic" then
    some [("__path__", "components"),
          ("__templatepath__", "templates/components"),
          ("__templatename__", options.dasherizedModuleName)]
  else if this.isOctane && commandOptions.componentStructure = some "flat" then
    some [("__path__", "components"),
          ("__templatepath__", "components"),
          ("__templatename__", options.dasherizedModuleName)]
  else if this.isOctane && commandOptions.componentStructure = some "nested" then
    some [("__path__", "components/" ++ options.dasherizedModuleName),
          ("__name__", "index"),
          ("__templatepath__", "components/" ++ options.dasherizedModuleName),
          ("__templatename__", "index")]
  else
    none

/-- The callback of `files.filter` in `files()`, run over the list from left to
right: the files kept so far and the set of skipped files. -/
def filterJs (files : List String) (skipped : List String) : List String × List String :=
  files.foldl
    (fun acc file =>
      if endsWith file ".js" then (acc.1, setAdd acc.2 file) else (acc.1 ++ [file], acc.2))
    ([], skipped)

/-- Hook `files()`: `defaultFiles` is what `this._super.files` returns. The result
is the returned list and the instance afterwards. -/
def files (this : This) (defaultFiles : List String) : List String × This :=
  if this.isOctane && this.options.componentClass = some "" then
    let r := filterJs defaultFiles this.skippedJsFiles
    (r.1, { this with skippedJsFiles := r.2 })
  else
    (defaultFiles, this)

/-- Hook `normalizeEntityName(entityName)`. -/
def normalizeEntityName (libs : Libs) (entityName : String) : String :=
  libs.hostNormalizeEntityName ⟨replaceJsAtEnd entityName.data⟩

/-- The line `let componentClass = this.isOctane ? options.componentClass :
'@ember/component'` of `locals`. -/
def effectiveComponentClass (this : This) (options : Options) : Option String :=
  if this.isOctane then options.componentClass else some "@ember/component"

/-- Hook `locals(options)`. -/
def locals (libs : Libs) (this : This) (options : Options) : Locals :=
  let sanitizedModuleName := replaceSlashes options.entityName
  let classifiedModuleName := libs.classify sanitizedModuleName
  let templatePath := templatePath libs options
  let componentClass := effectiveComponentClass this options
  let snippet : String × String × String :=
    -- (importTemplate, importComponent, defaultExport)
    if componentClass = some "@ember/component" then
      if truthy templatePath then
        ("import layout from '" ++ templatePath ++ "';" ++ libs.EOL,
         "import Component from '@ember/component';",
         "Component.extend(\x7b" ++ libs.EOL ++ "  layout" ++ libs.EOL ++ "\x7d);")
      else
        ("", "import Component from '@ember/component';",
         "Component.extend(\x7b" ++ libs.EOL ++ "\x7d);")
    else if componentClass = some "@glimmer/component" then
      ("", "import Component from '@glimmer/component';",
       "class " ++ classifiedModuleName ++ "Component extends Component \x7b" ++ libs.EOL ++ "\x7d")
    else if componentClass = some "@ember/component/template-only" then
      ("", "import templateOnly from '@ember/component/template-only';", "templateOnly();")
    else
      ("", "", "")
  { importTemplate := snippet.1
    importComponent := snippet.2.1
    defaultExport := snippet.2.2
    path := libs.getPathOption options
    componentClass := options.componentClass }

end Component

/-! ## `blueprints/component-class/index.js` -/

namespace ComponentClass

/-- Instance state of the component-class blueprint. -/
structure This where
  isOctane : Bool
  options : Options
  deriving DecidableEq, Repr

/-- Hook `init()`. The rewriting of the defaults of `availableOptions` is not
modelled. -/
def init (this : This) (hasOctane : Bool) : This :=
  { this with isOctane := hasOctane }

/-- Hook `install()`: it takes no named parameter and forwards `arguments`. -/
def install (this : This) (options : Options) : Options × List Call × Completion :=
  if !this.isOctane then
    (options, [], Completion.threw componentClassBlueprintMessage)
  else
    (options, [Call.superInstall options], Completion.returned)

/-- Hook `fileMapTokens(options)`. -/
def fileMapTokens (libs : Libs) (this : This) (options : TokenOptions) : Option TokenMap :=
  let commandOptions := this.options
  if commandOptions.pod then
    some [("__path__",
            libs.pathJoin options.podPath options.localsPath options.dasherizedModuleName),
          ("__name__", "component")]
  else if commandOptions.componentStructure = some "classic"
      || commandOptions.componentStructure = some "flat" then
    some [("__path__", "components")]
  else if commandOptions.componentStructure = some "nested" then
    some [("__path__", "components/" ++ options.dasherizedModuleName),
          ("__name__", "index")]
  else
    none

/-- Hook `normalizeEntityName(entityName)`. -/
def normalizeEntityName (libs : Libs) (entityName : String) : String :=
  libs.hostNormalizeEntityName ⟨replaceJsAtEnd entityName.data⟩

/-- Hook `locals(options)`. -/
def locals (libs : Libs) (_this : This) (options : Options) : Locals :=
  let sanitizedModuleName := replaceSlashes options.entityName
  let classifiedModuleName := libs.classify sanitizedModuleName
  let templatePath := templatePath libs options
  let componentClass := options.componentClass
  let snippet : String × String × String :=
    -- (importTemplate, importComponent, defaultExport)
    if componentClass = some "@ember/component" then
      if truthy templatePath then
        ("import layout from '" ++ templatePath ++ "';" ++ libs.EOL,
         "import Component from '@ember/component';",
         "Component.extend(\x7b" ++ libs.EOL ++ "  layout" ++ libs.EOL ++ "\x7d);")
      else
        ("", "import Component from '@ember/component';",
         "Component.extend(\x7b" ++ libs.EOL ++ "\x7d);")
    else if componentClass = some "@glimmer/component" then
      ("", "import Component from '@glimmer/component';",
       "class " ++ classifiedModuleName ++ "Component extends Component \x7b\n\x7d")
    else if componentClass = some "@ember/component/template-only" then
      ("", "import templateOnly from '@ember/component/template-only';", "templateOnly();")
    else
      ("", "", "")
  { importTemplate := snippet.1
    importComponent := snippet.2.1
    defaultExport := snippet.2.2
    path := libs.getPathOption options
    componentClass := componentClass }

end ComponentClass

/-! ## The wording of the specification, for comparison -/

/-- Strip, as the specification words it: one trailing `.js` is removed when the
name ends with `.js`, and the name is returned unchanged otherwise. -/
def strip (s : String) : String :=
  if endsWith s ".js" then ⟨s.data.take (s.data.length - 3)⟩ else s

/-! ## A concrete library record, for evaluating the hooks on examples -/

/-- Stand-ins for the imported functions. The theorems below hold for every
`Libs`; this record only serves to run the hooks on concrete inputs. -/
def sampleLibs : Libs where
  pathJoin a b c := "/".intercalate ([a, b, c].filter (fun x => x != ""))
  classify s := s.capitalize
  dasherize s := s
  getRelativeParentPath _ := "../"
  getPathOption _ := "components"
  hostNormalizeEntityName s := s
  EOL := "\n"
  chalkYellow s := s
  chalkCyan s := s
  mapFile file _ := file

/-- Options of a run with the legacy defaults, for the entity `foo`. -/
def legacyOptions : Options where
  componentClass := some "@ember/component"
  componentStructure := some "classic"
  pod := false
  entityName := "foo"
  isEmberCLIAddon := false
  inRepoAddon := false
  inDummy := false

/-! ## Lemmas on strings, sets and the filter -/

/-- Replacing the match of `/\.js$/` drops the last three characters exactly
when the input ends with `.js`. -/
theorem replaceJsAtEnd_eq (l : List Char) :
    replaceJsAtEnd l
      = if ['.', 'j', 's'] <:+ l then l.take (l.length - 3) else l := by
  induction l with
  | nil => simp [replaceJsAtEnd]
  | cons c cs ih =>
    by_cases hm : c :: cs = ['.', 'j', 's']
    · simp [replaceJsAtEnd, matchesJsAtEnd, hm]
    · have hiff : (['.', 'j', 's'] <:+ c :: cs) ↔ (['.', 'j', 's'] <:+ cs) := by
        rw [List.suffix_cons_iff]
        constructor
        · rintro (h | h)
          · exact absurd h.symm hm
          · exact h
        · exact Or.inr
      have hb : matchesJsAtEnd (c :: cs) = false := by
        simpa [matchesJsAtEnd] using hm
      rw [replaceJsAtEnd, hb, ih]
      by_cases hs : ['.', 'j', 's'] <:+ cs
      · have hlen : 3 ≤ cs.length := by simpa using hs.length_le
        have e : (c :: cs).length - 3 = (cs.length - 3) + 1 := by
          simp only [List.length_cons]; omega
        rw [if_pos hs, if_pos (hiff.mpr hs), e, List.take_succ_cons]
        simp
      · simp [hs, hiff]

/-- The source's regular-expression replacement is the specification's strip. -/
theorem replaceJsAtEnd_eq_strip (s : String) : (⟨replaceJsAtEnd s.data⟩ : String) = strip s := by
  unfold strip endsWith
  rw [replaceJsAtEnd_eq]
  by_cases h : ['.', 'j', 's'] <:+ s.data
  · have h2 : (".js" : String).data.isSuffixOf s.data = true :=
      List.isSuffixOf_iff_suffix.mpr h
    simp [h, h2]
  · have h2 : ¬ ((".js" : String).data.isSuffixOf s.data = true) := fun hh =>
      h (List.isSuffixOf_iff_suffix.mp hh)
    simp [h, h2]

/-- Inside an addon the template path is a non-empty string. -/
theorem truthy_templatePath (libs : Libs) (options : Options)
    (h : inAddon options = true) :
    truthy (templatePath libs options) = true := by
  have key : ∀ a b : String, (a ++ "templates/components/" ++ b) ≠ "" := by
    intro a b hab
    have hlen := congrArg String.length hab
    simp [String.length_append] at hlen
    have h21 : ("templates/components/" : String).length = 21 := by decide
    omega
  unfold truthy templatePath
  rw [if_pos h]
  by_cases hp : options.pod = true
  · rw [if_pos hp]; decide
  · rw [if_neg hp]
    simpa using key _ _

/-- Outside an addon the template path is the empty string. -/
theorem templatePath_outside_addon (libs : Libs) (options : Options)
    (h : inAddon options = false) :
    templatePath libs options = "" := by
  unfold templatePath
  rw [if_neg (by simp [h])]

/-- Replacing every `/` by `-`, character by character: a `/` of the name becomes
`-` and every other character stays. -/
theorem replaceSlashes_pointwise (name : String) :
    List.Forall₂ (fun a b => (a = '/' → b = '-') ∧ (a ≠ '/' → b = a))
      name.data (replaceSlashes name).data := by
  unfold replaceSlashes
  generalize name.data = l
  induction l with
  | nil => exact List.Forall₂.nil
  | cons c cs ih =>
    refine List.Forall₂.cons ⟨?_, ?_⟩ ih
    · intro h; simp [h]
    · intro h; simp [h]

/-- No `/` is left after the replacement. -/
theorem slash_not_mem_replaceSlashes (name : String) :
    '/' ∉ (replaceSlashes name).data := by
  unfold replaceSlashes
  simp only [List.mem_map, not_exists, not_and]
  intro c _ h
  by_cases hc : c = '/'
  · rw [if_pos hc] at h
    exact absurd h (by decide)
  · rw [if_neg hc] at h
    exact hc h

/-- Membership after adding a run of files to the set. -/
theorem mem_foldl_setAdd (l s : List String) (x : String) :
    x ∈ l.foldl setAdd s ↔ x ∈ s ∨ x ∈ l := by
  induction l generalizing s with
  | nil => simp
  | cons a l ih =>
    rw [List.foldl_cons, ih]
    unfold setAdd
    by_cases ha : a ∈ s
    · rw [if_pos ha]
      constructor
      · rintro (h | h)
        · exact Or.inl h
        · exact Or.inr (List.mem_cons_of_mem _ h)
      · rintro (h | h)
        · exact Or.inl h
        · rcases List.mem_cons.mp h with h | h
          · exact Or.inl (h ▸ ha)
          · exact Or.inr h
    · rw [if_neg ha]
      simp only [List.mem_append, List.mem_singleton, List.mem_cons]
      tauto

/-- Adding files keeps the set free of duplicates. -/
theorem nodup_foldl_setAdd (l s : List String) (hs : s.Nodup) :
    (l.foldl setAdd s).Nodup := by
  induction l generalizing s with
  | nil => simpa using hs
  | cons a l ih =>
    rw [List.foldl_cons]
    apply ih
    unfold setAdd
    by_cases ha : a ∈ s
    · rw [if_pos ha]; exact hs
    · rw [if_neg ha]
      exact List.Nodup.append hs (List.nodup_singleton a) (by simpa using ha)

/-- The filter callback, run from any intermediate state: the kept files are
those that do not end in `.js`, and the files that do are added to the set. -/
theorem foldl_filterJs (files kept skipped : List String) :
    files.foldl
        (fun acc file =>
          if endsWith file ".js" then (acc.1, setAdd acc.2 file)
          else (acc.1 ++ [file], acc.2))
        (kept, skipped)
      = (kept ++ files.filter (fun f => !endsWith f ".js"),
         (files.filter (fun f => endsWith f ".js")).foldl setAdd skipped) := by
  induction files generalizing kept skipped with
  | nil => simp
  | cons a l ih =>
    rw [List.foldl_cons]
    by_cases ha : endsWith a ".js" = true
    · simp only [ha, if_true]
      rw [ih]
      simp [List.filter_cons, ha]
    · have ha2 : endsWith a ".js" = false := by simpa using ha
      simp only [ha2]
      rw [ih]
      simp [List.filter_cons, ha2]

/-- The result of the filter of `files()`. -/
theorem filterJs_eq (files skipped : List String) :
    Component.filterJs files skipped
      = (files.filter (fun f => !endsWith f ".js"),
         (files.filter (fun f => endsWith f ".js")).foldl setAdd skipped) := by
  unfold Component.filterJs
  rw [foldl_filterJs]
  simp

/-! ## Claims -/

/-- C5: in both blueprints `normalizeEntityName s` is the host normalizer applied
to `strip s`; `strip` removes exactly one trailing `.js` when `s` ends with `.js`
(so `strip s ++ ".js" = s`) and returns `s` unchanged otherwise; `foo.js` becomes
`foo`, `foo.js.js` becomes `foo.js`, and `foo.js/bar` is kept. -/
theorem normalizeEntityName_eq_host_strip (libs : Libs) (s : String) :
    Component.normalizeEntityName libs s = libs.hostNormalizeEntityName (strip s)
    ∧ ComponentClass.normalizeEntityName libs s = libs.hostNormalizeEntityName (strip s)
    ∧ (endsWith s ".js" = true → strip s ++ ".js" = s)
    ∧ (endsWith s ".js" = false → strip s = s)
    ∧ strip "foo.js" = "foo" ∧ strip "foo.js.js" = "foo.js"
    ∧ strip "foo.js/bar" = "foo.js/bar" := by
  refine ⟨?_, ?_, ?_, ?_, by decide, by decide, by decide⟩
  · simp only [Component.normalizeEntityName, replaceJsAtEnd_eq_strip]
  · simp only [ComponentClass.normalizeEntityName, replaceJsAtEnd_eq_strip]
  · intro h
    have hs : (".js" : String).data <:+ s.data := List.isSuffixOf_iff_suffix.mp h
    obtain ⟨t, ht⟩ := hs
    apply String.ext
    simp only [strip, h, if_true, String.data_append]
    rw [← ht]
    simp
  · intro h
    simp [strip, h]

/-- C1: `install` of the component blueprint raises exactly when the edition is
not Octane and the normalized `componentClass` is not `@ember/component` or
`componentStructure` is not `classic`; when it raises no host call has been made;
when it does not raise it delegates once to the host install with the normalized
options; under Octane it never raises and always delegates. -/
theorem component_install_raises_iff (this : Component.This) (options : Options) :
    ((∃ msg, (Component.install this options).2.2 = Completion.threw msg)
        ↔ (this.isOctane = false
            ∧ ((if options.componentClass = some "--no-component-class" then some ""
                  else options.componentClass) ≠ some "@ember/component"
               ∨ options.componentStructure ≠ some "classic")))
    ∧ (∀ msg, (Component.install this options).2.2 = Completion.threw msg →
        (Component.install this options).2.1 = []
        ∧ (msg = componentClassMessage ∨ msg = componentStructureMessage))
    ∧ ((Component.install this options).2.2 = Completion.returned →
        (Component.install this options).2.1
          = [Call.superInstall (Component.install this options).1])
    ∧ (this.isOctane = true →
        (Component.install this options).2.2 = Completion.returned
        ∧ (Component.install this options).2.1
            = [Call.superInstall
                { options with
                  componentClass :=
                    if options.componentClass = some "--no-component-class" then some ""
                    else options.componentClass }]) := by
  rcases this with ⟨oct, topts, sk, sl⟩
  rcases options with ⟨cc, cs, pod, name, a, r, d⟩
  cases oct <;> by_cases h1 : cc = some "--no-component-class"
    <;> by_cases h2 : cc = some "@ember/component"
    <;> by_cases h3 : cs = some "classic"
    <;> simp_all [Component.install]

/-- C6, as the code has it: `install` of the component-class blueprint raises
exactly when the edition is not Octane, whatever the options; the error is the
one configuration error of this blueprint and no host call has been made; under
Octane it delegates once to the host install with the options untouched. -/
theorem componentClass_install_raises_iff (this : ComponentClass.This) (options : Options) :
    ((∃ msg, (ComponentClass.install this options).2.2 = Completion.threw msg)
        ↔ this.isOctane = false)
    ∧ (∀ msg, (ComponentClass.install this options).2.2 = Completion.threw msg →
        msg = componentClassBlueprintMessage
        ∧ (ComponentClass.install this options).2.1 = [])
    ∧ (this.isOctane = true →
        ComponentClass.install this options
          = (options, [Call.superInstall options], Completion.returned)) := by
  rcases this with ⟨oct, topts⟩
  cases oct <;> simp [ComponentClass.install, eq_comm]

/-- C6 fails as stated: outside Octane, with `componentClass` `@ember/component`
and `componentStructure` `classic`, `install` of the component-class blueprint
raises and does not call the host install. -/
theorem componentClass_install_legacy_defaults_raise :
    legacyOptions.componentClass = some "@ember/component"
    ∧ legacyOptions.componentStructure = some "classic"
    ∧ ComponentClass.install { isOctane := false, options := legacyOptions } legacyOptions
        = (legacyOptions, [], Completion.threw componentClassBlueprintMessage) := by
  refine ⟨rfl, rfl, rfl⟩

/-- C2: for every pod flag and every `componentStructure` among `classic`, `flat`
and `nested`, `fileMapTokens` of the component blueprint returns a token map, and
the map is the one of the convention table. -/
theorem component_fileMapTokens_table (libs : Libs) (this : Component.This)
    (options : TokenOptions)
    (hcs : this.options.componentStructure = some "classic"
      ∨ this.options.componentStructure = some "flat"
      ∨ this.options.componentStructure = some "nested") :
    (∃ m, Component.fileMapTokens libs this options = some m)
    ∧ (this.options.pod = true →
        Component.fileMapTokens libs this options
          = some [("__path__",
                    libs.pathJoin options.podPath options.localsPath
                      options.dasherizedModuleName),
                  ("__templatepath__",
                    libs.pathJoin options.podPath options.localsPath
                      options.dasherizedModuleName),
                  ("__templatename__", "template")])
    ∧ (this.options.pod = false →
        (this.isOctane = false ∨ this.options.componentStructure = some "classic") →
        Component.fileMapTokens libs this options
          = some [("__path__", "components"),
                  ("__templatepath__", "templates/components"),
                  ("__templatename__", options.dasherizedModuleName)])
    ∧ (this.options.pod = false → this.isOctane = true →
        this.options.componentStructure = some "flat" →
        Component.fileMapTokens libs this options
          = some [("__path__", "components"),
                  ("__templatepath__", "components"),
                  ("__templatename__", options.dasherizedModuleName)])
    ∧ (this.options.pod = false → this.isOctane = true →
        this.options.componentStructure = some "nested" →
        Component.fileMapTokens libs this options
          = some [("__path__", "components/" ++ options.dasherizedModuleName),
                  ("__name__", "index"),
                  ("__templatepath__", "components/" ++ options.dasherizedModuleName),
                  ("__templatename__", "index")]) := by
  rcases this with ⟨oct, ⟨cc, cs, pod, name, a, r, d⟩, sk, sl⟩
  simp only at hcs
  cases oct <;> cases pod <;> rcases hcs with h | h | h
    <;> subst h <;> simp [Component.fileMapTokens]

/-- C2 at a concrete input: Octane, no pod, structure `nested`, entity `foo-bar`. -/
theorem component_fileMapTokens_table_witness :
    Component.fileMapTokens sampleLibs
        { isOctane := true
          options := { legacyOptions with componentStructure := some "nested" }
          skippedJsFiles := [], savedLocals := [] }
        { podPath := "", localsPath := "components", dasherizedModuleName := "foo-bar" }
      = some [("__path__", "components/foo-bar"), ("__name__", "index"),
              ("__templatepath__", "components/foo-bar"), ("__templatename__", "index")] :=
  (component_fileMapTokens_table sampleLibs
      { isOctane := true
        options := { legacyOptions with componentStructure := some "nested" }
        skippedJsFiles := [], savedLocals := [] }
      { podPath := "", localsPath := "components", dasherizedModuleName := "foo-bar" }
      (Or.inr (Or.inr rfl))).2.2.2.2 rfl rfl rfl

/-- C10: under Octane, for every pod flag and every `componentStructure` among
`classic`, `flat` and `nested`, both blueprints return a token map, the two maps
define the same `__path__`, and for `nested` without pod both define `__name__`
as `index`. -/
theorem componentClass_fileMapTokens_path_agrees (libs : Libs) (c : Component.This)
    (k : ComponentClass.This) (options : TokenOptions)
    (hoct : c.isOctane = true) (hopts : k.options = c.options)
    (hcs : c.options.componentStructure = some "classic"
      ∨ c.options.componentStructure = some "flat"
      ∨ c.options.componentStructure = some "nested") :
    ∃ mc mk p,
      Component.fileMapTokens libs c options = some mc
      ∧ ComponentClass.fileMapTokens libs k options = some mk
      ∧ mc.get "__path__" = some p ∧ mk.get "__path__" = some p
      ∧ (c.options.pod = false → c.options.componentStructure = some "nested" →
          mc.get "__name__" = some "index" ∧ mk.get "__name__" = some "index") := by
  rcases c with ⟨oct, ⟨cc, cs, pod, name, a, r, d⟩, sk, sl⟩
  rcases k with ⟨koct, kopts⟩
  simp only at hoct hopts hcs
  subst hoct hopts
  cases pod <;> rcases hcs with h | h | h <;> subst h
    <;> simp [Component.fileMapTokens, ComponentClass.fileMapTokens, TokenMap.get]

/-- C10 at a concrete input: Octane, no pod, structure `nested`, entity `foo-bar`. -/
theorem componentClass_fileMapTokens_path_agrees_witness :
    ∃ mc mk p,
      Component.fileMapTokens sampleLibs
          { isOctane := true
            options := { legacyOptions with componentStructure := some "nested" }
            skippedJsFiles := [], savedLocals := [] }
          { podPath := "", localsPath := "components", dasherizedModuleName := "foo-bar" }
        = some mc
      ∧ ComponentClass.fileMapTokens sampleLibs
          { isOctane := true
            options := { legacyOptions with componentStructure := some "nested" } }
          { podPath := "", localsPath := "components", dasherizedModuleName := "foo-bar" }
        = some mk
      ∧ mc.get "__path__" = some p ∧ mk.get "__path__" = some p
      ∧ (false = false → some "nested" = some "nested" →
          mc.get "__name__" = some "index" ∧ mk.get "__name__" = some "index") :=
  componentClass_fileMapTokens_path_agrees sampleLibs
    { isOctane := true
      options := { legacyOptions with componentStructure := some "nested" }
      skippedJsFiles := [], savedLocals := [] }
    { isOctane := true
      options := { legacyOptions with componentStructure := some "nested" } }
    { podPath := "", localsPath := "components", dasherizedModuleName := "foo-bar" }
    rfl rfl (Or.inr (Or.inr rfl))

/-- C3: `locals` of the component blueprint produces the snippet of the effective
base class (`options.componentClass` under Octane, `@ember/component` otherwise),
as documented for `@glimmer/component`, `@ember/component/template-only` and
`@ember/component` (outside an addon, and inside one, that is when
`project.isEmberCLIAddon()` holds or `inRepoAddon` holds and `inDummy` does not);
the class name is `classify` of the entity name in which every `/` has become `-`
and every other character is kept; two different variants never give the same
import. -/
theorem component_locals_snippets (libs : Libs) (this : Component.This) (options : Options) :
    (Component.effectiveComponentClass this options
        = (if this.isOctane = true then options.componentClass else some "@ember/component"))
    ∧ (List.Forall₂ (fun a b => (a = '/' → b = '-') ∧ (a ≠ '/' → b = a))
          options.entityName.data (replaceSlashes options.entityName).data
        ∧ '/' ∉ (replaceSlashes options.entityName).data
        ∧ replaceSlashes "foo/bar/baz-qux" = "foo-bar-baz-qux")
    ∧ (Component.effectiveComponentClass this options = some "@glimmer/component" →
        (Component.locals libs this options).importComponent
          = "import Component from '@glimmer/component';"
        ∧ (Component.locals libs this options).defaultExport
          = "class " ++ libs.classify (replaceSlashes options.entityName)
              ++ "Component extends Component \x7b" ++ libs.EOL ++ "\x7d"
        ∧ (Component.locals libs this options).importTemplate = "")
    ∧ (Component.effectiveComponentClass this options
          = some "@ember/component/template-only" →
        (Component.locals libs this options).importComponent
          = "import templateOnly from '@ember/component/template-only';"
        ∧ (Component.locals libs this options).defaultExport = "templateOnly();"
        ∧ (Component.locals libs this options).importTemplate = "")
    ∧ (Component.effectiveComponentClass this options = some "@ember/component" →
        (Component.locals libs this options).importComponent
          = "import Component from '@ember/component';"
        ∧ (¬ (options.isEmberCLIAddon = true
              ∨ (options.inRepoAddon = true ∧ options.inDummy = false)) →
            (Component.locals libs this options).importTemplate = ""
            ∧ (Component.locals libs this options).defaultExport
              = "Component.extend(\x7b" ++ libs.EOL ++ "\x7d);")
        ∧ ((options.isEmberCLIAddon = true
              ∨ (options.inRepoAddon = true ∧ options.inDummy = false)) →
            (Component.locals libs this options).importTemplate
              = "import layout from '"
                  ++ (if options.pod = true then "./template"
                      else libs.getRelativeParentPath options.entityName
                        ++ "templates/components/" ++ libs.dasherize options.entityName)
                  ++ "';" ++ libs.EOL
            ∧ (Component.locals libs this options).defaultExport
              = "Component.extend(\x7b" ++ libs.EOL ++ "  layout" ++ libs.EOL ++ "\x7d);"))
    ∧ (∀ (this2 : Component.This) (options2 : Options),
        (Component.effectiveComponentClass this options = some "@ember/component"
          ∨ Component.effectiveComponentClass this options = some "@glimmer/component"
          ∨ Component.effectiveComponentClass this options
              = some "@ember/component/template-only") →
        (Component.effectiveComponentClass this2 options2 = some "@ember/component"
          ∨ Component.effectiveComponentClass this2 options2 = some "@glimmer/component"
          ∨ Component.effectiveComponentClass this2 options2
              = some "@ember/component/template-only") →
        Component.effectiveComponentClass this options
          ≠ Component.effectiveComponentClass this2 options2 →
        (Component.locals libs this options).importComponent
          ≠ (Component.locals libs this2 options2).importComponent) := by
  refine ⟨by simp [Component.effectiveComponentClass],
    ⟨replaceSlashes_pointwise _, slash_not_mem_replaceSlashes _, by decide⟩, ?_, ?_, ?_, ?_⟩
  · intro h
    simp [Component.locals, h]
  · intro h
    simp [Component.locals, h]
  · intro h
    have hiff : inAddon options = true
        ↔ (options.isEmberCLIAddon = true
            ∨ (options.inRepoAddon = true ∧ options.inDummy = false)) := by
      simp [inAddon]
    refine ⟨?_, ?_, ?_⟩
    · by_cases ht : truthy (templatePath libs options) = true <;>
        simp [Component.locals, h, ht]
    · intro hn
      have ha : inAddon options = false := by
        cases hb : inAddon options with
        | false => rfl
        | true => exact absurd (hiff.mp hb) hn
      have ht := templatePath_outside_addon libs options ha
      simp [Component.locals, h, ht, truthy]
    · intro hy
      have ha : inAddon options = true := hiff.mpr hy
      have ht := truthy_templatePath libs options ha
      have hp : templatePath libs options
          = (if options.pod = true then "./template"
              else libs.getRelativeParentPath options.entityName
                ++ "templates/components/" ++ libs.dasherize options.entityName) := by
        simp [templatePath, ha]
      simp only [Component.locals, h, ht, if_true]
      rw [hp]
      exact ⟨rfl, trivial⟩
  · intro this2 options2 h1 h2 hne
    have e1 : ∀ (t : Component.This) (o : Options),
        Component.effectiveComponentClass t o = some "@ember/component" →
        (Component.locals libs t o).importComponent
          = "import Component from '@ember/component';" := by
      intro t o h
      by_cases ht : truthy (templatePath libs o) = true <;> simp [Component.locals, h, ht]
    have e2 : ∀ (t : Component.This) (o : Options),
        Component.effectiveComponentClass t o = some "@glimmer/component" →
        (Component.locals libs t o).importComponent
          = "import Component from '@glimmer/component';" := by
      intro t o h
      simp [Component.locals, h]
    have e3 : ∀ (t : Component.This) (o : Options),
        Component.effectiveComponentClass t o = some "@ember/component/template-only" →
        (Component.locals libs t o).importComponent
          = "import templateOnly from '@ember/component/template-only';" := by
      intro t o h
      simp [Component.locals, h]
    rcases h1 with h1 | h1 | h1 <;> rcases h2 with h2 | h2 | h2
    all_goals first
      | exact absurd (h1.trans h2.symm) hne
      | (rw [e1 _ _ h1, e2 _ _ h2]; decide)
      | (rw [e1 _ _ h1, e3 _ _ h2]; decide)
      | (rw [e2 _ _ h1, e1 _ _ h2]; decide)
      | (rw [e2 _ _ h1, e3 _ _ h2]; decide)
      | (rw [e3 _ _ h1, e1 _ _ h2]; decide)
      | (rw [e3 _ _ h1, e2 _ _ h2]; decide)

/-- C3 at concrete inputs: under Octane the entity `foo/bar` with
`@glimmer/component` gives a class named after `foo-bar`; outside Octane, in an
in-repo addon and not in the dummy app, the entity `foo` gives the layout import
and the `layout` property. -/
theorem component_locals_snippets_witness :
    (Component.locals sampleLibs
        { isOctane := true, options := legacyOptions, skippedJsFiles := [], savedLocals := [] }
        { legacyOptions with
          componentClass := some "@glimmer/component", entityName := "foo/bar" }).defaultExport
      = "class " ++ sampleLibs.classify "foo-bar" ++ "Component extends Component \x7b\n\x7d"
    ∧ (Component.locals sampleLibs
        { isOctane := false, options := legacyOptions, skippedJsFiles := [], savedLocals := [] }
        { legacyOptions with
          componentClass := some "@glimmer/component", inRepoAddon := true }).importTemplate
      = "import layout from '../templates/components/foo';\n"
    ∧ (Component.locals sampleLibs
        { isOctane := false, options := legacyOptions, skippedJsFiles := [], savedLocals := [] }
        { legacyOptions with
          componentClass := some "@glimmer/component", inRepoAddon := true }).defaultExport
      = "Component.extend(\x7b\n  layout\n\x7d);" :=
  ⟨((component_locals_snippets sampleLibs
        { isOctane := true, options := legacyOptions, skippedJsFiles := [], savedLocals := [] }
        { legacyOptions with
          componentClass := some "@glimmer/component", entityName := "foo/bar" }).2.2.1
        rfl).2.1,
   (((component_locals_snippets sampleLibs
        { isOctane := false, options := legacyOptions, skippedJsFiles := [], savedLocals := [] }
        { legacyOptions with
          componentClass := some "@glimmer/component", inRepoAddon := true }).2.2.2.2.1
        rfl).2.2 (Or.inr ⟨rfl, rfl⟩)).1,
   (((component_locals_snippets sampleLibs
        { isOctane := false, options := legacyOptions, skippedJsFiles := [], savedLocals := [] }
        { legacyOptions with
          componentClass := some "@glimmer/component", inRepoAddon := true }).2.2.2.2.1
        rfl).2.2 (Or.inr ⟨rfl, rfl⟩)).2⟩

/-- C9, evaluated: under Octane the two `locals` agree on `importTemplate`,
`importComponent`, `path` and `componentClass` for every input, and on
`defaultExport` whenever `componentClass` is not `@glimmer/component`; for
`@glimmer/component` with the end-of-line string `\r\n` the component blueprint
writes `\r\n` inside the class body, the component-class blueprint writes `\n`,
and the two `defaultExport` strings differ. -/
theorem componentClass_locals_glimmer_eol_differs (libs : Libs) (c : Component.This)
    (k : ComponentClass.This) (o : Options) :
    (ComponentClass.locals libs k o).importTemplate
        = (Component.locals libs { c with isOctane := true } o).importTemplate
    ∧ (ComponentClass.locals libs k o).importComponent
        = (Component.locals libs { c with isOctane := true } o).importComponent
    ∧ (ComponentClass.locals libs k o).path
        = (Component.locals libs { c with isOctane := true } o).path
    ∧ (ComponentClass.locals libs k o).componentClass
        = (Component.locals libs { c with isOctane := true } o).componentClass
    ∧ (o.componentClass ≠ some "@glimmer/component" →
        (ComponentClass.locals libs k o).defaultExport
          = (Component.locals libs { c with isOctane := true } o).defaultExport)
    ∧ (Component.locals { libs with EOL := "\r\n" } { c with isOctane := true }
          { o with componentClass := some "@glimmer/component" }).defaultExport
        = "class " ++ libs.classify (replaceSlashes o.entityName)
            ++ "Component extends Component \x7b\r\n\x7d"
    ∧ (ComponentClass.locals { libs with EOL := "\r\n" } k
          { o with componentClass := some "@glimmer/component" }).defaultExport
        = "class " ++ libs.classify (replaceSlashes o.entityName)
            ++ "Component extends Component \x7b\n\x7d"
    ∧ (ComponentClass.locals { libs with EOL := "\r\n" } k
          { o with componentClass := some "@glimmer/component" }).defaultExport
        ≠ (Component.locals { libs with EOL := "\r\n" } { c with isOctane := true }
          { o with componentClass := some "@glimmer/component" }).defaultExport := by
  have hc : ∀ (l : Libs) (o2 : Options),
      (Component.locals l { c with isOctane := true }
          { o2 with componentClass := some "@glimmer/component" }).defaultExport
        = "class " ++ l.classify (replaceSlashes o2.entityName)
            ++ "Component extends Component \x7b" ++ l.EOL ++ "\x7d" := by
    intro l o2
    simp [Component.locals, Component.effectiveComponentClass]
  have hk : ∀ (l : Libs) (o2 : Options),
      (ComponentClass.locals l k
          { o2 with componentClass := some "@glimmer/component" }).defaultExport
        = "class " ++ l.classify (replaceSlashes o2.entityName)
            ++ "Component extends Component \x7b\n\x7d" := by
    intro l o2
    simp [ComponentClass.locals]
  refine ⟨?_, ?_, ?_, ?_, ?_, ?_, ?_, ?_⟩
  · simp only [ComponentClass.locals, Component.locals, Component.effectiveComponentClass,
      if_true]
    split_ifs <;> rfl
  · simp only [ComponentClass.locals, Component.locals, Component.effectiveComponentClass,
      if_true]
    split_ifs <;> rfl
  · rfl
  · rfl
  · intro h
    simp only [ComponentClass.locals, Component.locals, Component.effectiveComponentClass,
      if_true, if_neg h]
  · rw [hc]
    apply String.ext
    simp [String.data_append]
  · rw [hk]
  · rw [hc, hk]
    intro h
    have hlen := congrArg String.length h
    simp only [String.length_append] at hlen
    have h1 : ("Component extends Component \x7b\n\x7d" : String).length = 31 := by decide
    have h2 : ("Component extends Component \x7b" : String).length = 29 := by decide
    have h3 : ("\r\n" : String).length = 2 := by decide
    have h4 : ("\x7d" : String).length = 1 := by decide
    rw [h1, h2, h3, h4] at hlen
    omega

/-- C4: with an empty `skippedJsFiles`, under Octane with `componentClass` `''`,
`files()` returns the default files that do not end in `.js`, in their order, the
set of skipped files afterwards holds exactly the default files that end in `.js`
(each once), and nothing else of the instance changes; in every other case the
default list is returned and the instance is unchanged; `init` leaves
`skippedJsFiles` empty. -/
theorem component_files_skips_js (this : Component.This) (defaultFiles : List String)
    (hempty : this.skippedJsFiles = []) :
    ((this.isOctane = true ∧ this.options.componentClass = some "") →
        (Component.files this defaultFiles).1
          = defaultFiles.filter (fun f => !endsWith f ".js")
        ∧ (∀ f, f ∈ (Component.files this defaultFiles).2.skippedJsFiles
            ↔ (f ∈ defaultFiles ∧ endsWith f ".js" = true))
        ∧ (Component.files this defaultFiles).2.skippedJsFiles.Nodup
        ∧ (Component.files this defaultFiles).2
            = { this with
                skippedJsFiles := (Component.files this defaultFiles).2.skippedJsFiles })
    ∧ (¬ (this.isOctane = true ∧ this.options.componentClass = some "") →
        Component.files this defaultFiles = (defaultFiles, this))
    ∧ (∀ hasOctane, (Component.init this hasOctane).skippedJsFiles = []) := by
  refine ⟨?_, ?_, fun _ => rfl⟩
  · rintro ⟨h1, h2⟩
    have hf : Component.files this defaultFiles
        = ((Component.filterJs defaultFiles this.skippedJsFiles).1,
           { this with
             skippedJsFiles := (Component.filterJs defaultFiles this.skippedJsFiles).2 }) := by
      simp [Component.files, h1, h2]
    rw [hf, filterJs_eq, hempty]
    refine ⟨rfl, ?_, ?_, rfl⟩
    · intro f
      simp only [mem_foldl_setAdd, List.mem_filter]
      simp
    · exact nodup_foldl_setAdd _ _ List.nodup_nil
  · intro h
    unfold Component.files
    rw [if_neg]
    intro hb
    apply h
    simpa using hb

/-- C4 at a concrete input: the two default files of the component blueprint,
under Octane with `componentClass` `''`. -/
theorem component_files_skips_js_witness :
    (Component.files
        { isOctane := true, options := { legacyOptions with componentClass := some "" },
          skippedJsFiles := [], savedLocals := [] }
        ["__root__/__path__/__name__.js",
         "__root__/__templatepath__/__templatename__.hbs"]).1
      = ["__root__/__templatepath__/__templatename__.hbs"] :=
  ((component_files_skips_js
      { isOctane := true, options := { legacyOptions with componentClass := some "" },
        skippedJsFiles := [], savedLocals := [] }
      ["__root__/__path__/__name__.js",
       "__root__/__templatepath__/__templatename__.hbs"] rfl).1 ⟨rfl, rfl⟩).1

/-- C7: whatever `componentClass` the options carry, `uninstall` sets it to
`@ember/component`, changes no other option, and then delegates once to the host
uninstall with those options; `files()` run with those options returns the
default list unchanged, so every `.js` file of it is kept, and leaves the
instance, `skippedJsFiles` included, unchanged. -/
theorem component_uninstall_keeps_js (this : Component.This) (options : Options)
    (defaultFiles : List String) :
    (Component.uninstall this options).1
        = { options with componentClass := some "@ember/component" }
    ∧ (Component.uninstall this options).1.componentClass ≠ some ""
    ∧ (Component.uninstall this options).2
        = ([Call.superUninstall (Component.uninstall this options).1], Completion.returned)
    ∧ Component.files { this with options := (Component.uninstall this options).1 }
          defaultFiles
        = (defaultFiles, { this with options := (Component.uninstall this options).1 })
    ∧ (∀ f, f ∈ defaultFiles → endsWith f ".js" = true →
        f ∈ (Component.files { this with options := (Component.uninstall this options).1 }
              defaultFiles).1)
    ∧ (Component.files { this with options := (Component.uninstall this options).1 }
          defaultFiles).2.skippedJsFiles = this.skippedJsFiles := by
  have hf : Component.files { this with options := (Component.uninstall this options).1 }
        defaultFiles
      = (defaultFiles, { this with options := (Component.uninstall this options).1 }) := by
    simp [Component.files, Component.uninstall]
  refine ⟨rfl, by simp [Component.uninstall], rfl, hf, ?_, ?_⟩
  · intro f hmem _
    rw [hf]
    exact hmem
  · rw [hf]

/-- C8: after `beforeInstall` has saved the locals, `afterInstall` first calls the
host `afterInstall`, then writes one `skip` line per element of `skippedJsFiles`,
in order, each showing the file mapped through `mapFile` with the saved locals,
and then, exactly when `skippedJsFiles` is not empty, one `tip` line that contains
the command `ember generate component-class` followed by the entity name; with an
empty `skippedJsFiles` it writes no line. -/
theorem component_afterInstall_lines (libs : Libs) (this : Component.This)
    (beforeOptions options : Options) (locals : LocalsObj) :
    Component.afterInstall libs (Component.beforeInstall this beforeOptions locals) options
        = [Call.superAfterInstall options]
          ++ this.skippedJsFiles.map (fun file =>
              Call.writeLine ("  " ++ libs.chalkYellow "skip" ++ " " ++ libs.mapFile file locals))
          ++ (if this.skippedJsFiles = [] then []
              else [Call.writeLine ("  " ++ libs.chalkCyan "tip" ++ " to add a class, run `"
                      ++ ("ember generate component-class " ++ options.entityName) ++ "`")])
    ∧ (this.skippedJsFiles = [] →
        Component.afterInstall libs (Component.beforeInstall this beforeOptions locals) options
          = [Call.superAfterInstall options])
    ∧ ("ember generate component-class " ++ options.entityName).data
        <:+: ("  " ++ libs.chalkCyan "tip" ++ " to add a class, run `"
                ++ ("ember generate component-class " ++ options.entityName) ++ "`").data := by
  have hmain : Component.afterInstall libs
        (Component.beforeInstall this beforeOptions locals) options
      = [Call.superAfterInstall options]
          ++ this.skippedJsFiles.map (fun file =>
              Call.writeLine ("  " ++ libs.chalkYellow "skip" ++ " " ++ libs.mapFile file locals))
          ++ (if this.skippedJsFiles = [] then []
              else [Call.writeLine ("  " ++ libs.chalkCyan "tip" ++ " to add a class, run `"
                      ++ ("ember generate component-class " ++ options.entityName) ++ "`")]) := by
    unfold Component.afterInstall Component.beforeInstall
    cases hsk : this.skippedJsFiles with
    | nil => simp
    | cons a l => simp
  refine ⟨hmain, ?_, ?_⟩
  · intro h
    rw [hmain, h]
    simp
  · refine ⟨("  " ++ libs.chalkCyan "tip" ++ " to add a class, run `").data, ("`" : String).data, ?_⟩
    simp [String.data_append]

end Blueprints
